import Mathlib

/-!
# Verification of the PDF extraction pipeline

Shallow embedding of `src/config.py` and `src/pdf_extractor.py`.

The external PDF-reading library (PyPDF2) is modelled through the collaborator
boundary the spec fixes in §6: opening a path yields a document handle or a
failure; a handle exposes an encryption flag, an ordered sequence of pages each
yielding extracted text (or a failure), and an optional document-info
dictionary.  The filesystem is a partial map from paths to files; a file has a
size in bytes and the outcome of opening it with the reader.

Python exceptions relevant to the code's `try/except` structure are modelled by
`PyErr`: `FileNotFoundError`, `ValueError`, and any other exception collapsed
into `OtherError` (the generic `Exception` the code wraps with).
-/

/-- Python exception model.  `OtherError` stands for any exception that is
neither `FileNotFoundError` nor `ValueError`; the carried string is `str(e)`. -/
inductive PyErr where
  | FileNotFoundError (msg : String)
  | ValueError (msg : String)
  | OtherError (msg : String)
deriving Repr, DecidableEq

/-- A parsed PDF document handle, per the collaborator boundary of spec §6:
an encryption flag, the ordered pages (each `page.extract_text()` either
returns a string or raises), and the document-info dictionary
(`reader.metadata`), which is `None` (`none`) when the document has no info
dictionary. -/
structure PdfDocument where
  is_encrypted : Bool
  pages : List (Except PyErr String)
  metadata : Option (List (String × String))
deriving Repr

/-- A file on disk: its size in bytes, and what `PdfReader(path)` does on it
(returns a document handle or raises). -/
structure File where
  sizeBytes : Nat
  read : Except PyErr PdfDocument
deriving Repr

/-- The filesystem: `none` means the path does not reference an existing file. -/
def FS : Type := String → Option File

/-- The configuration surface consumed by the pipeline (`src/config.py`),
restricted to the parameters the extraction logic reads. -/
structure Config where
  SUPPORTED_EXTENSIONS : List String
  MAX_FILE_SIZE_MB : Nat
  PRESERVE_LINE_BREAKS : Bool
  REMOVE_EXTRA_WHITESPACE : Bool
  METADATA_FIELDS : List String
deriving Repr, DecidableEq

/-- The constants of `src/config.py`. -/
def defaultConfig : Config :=
  { SUPPORTED_EXTENSIONS := [".pdf"]
  , MAX_FILE_SIZE_MB := 50
  , PRESERVE_LINE_BREAKS := true
  , REMOVE_EXTRA_WHITESPACE := true
  , METADATA_FIELDS :=
      [ "title", "author", "subject", "creator", "producer"
      , "creation_date", "modification_date" ] }

/-! ## Python string primitives used by the source -/

/-- Whitespace in the sense of Python's `str.split()` / `str.strip()`
(ASCII subset; the source only meets ASCII whitespace in extracted text). -/
def pyIsSpace (c : Char) : Bool :=
  c = ' ' || c = '\t' || c = '\n' || c = '\r' || c = '\x0b' || c = '\x0c'

mutual
/-- `str.split()` with no argument, on character lists: maximal runs of
non-whitespace characters, empties dropped.  `wordsA` scans outside a word. -/
def wordsA : List Char → List (List Char)
  | [] => []
  | c :: cs =>
    if pyIsSpace c then wordsA cs
    else ((c :: (wordsB cs).1) :: (wordsB cs).2)

/-- Scanning inside a word: returns the rest of the current word and the
remaining words. -/
def wordsB : List Char → List Char × List (List Char)
  | [] => ([], [])
  | c :: cs =>
    if pyIsSpace c then ([], wordsA cs)
    else ((c :: (wordsB cs).1), (wordsB cs).2)
end

/-- Python `s.split()` (no separator argument). -/
def pySplit (s : String) : List String :=
  (wordsA s.data).map (fun w => String.mk w)

/-- Python `sep.join(xs)`. -/
def pyJoin (sep : String) : List String → String
  | [] => ""
  | [x] => x
  | x :: xs => x ++ sep ++ pyJoin sep xs

/-- Python `s.lower()` (ASCII; sufficient for the extension strings compared
here). -/
def toLowerAscii (s : String) : String :=
  String.mk (s.data.map Char.toLower)

/-- The final path component (POSIX `os.path.basename`): everything after the
last `'/'`, the whole string when there is none. -/
def basename (p : String) : String :=
  String.mk ((p.data.reverse.takeWhile (fun c => c ≠ '/')).reverse)

/-- The extension part of `os.path.splitext` applied to a path basename
(CPython `genericpath._splitext`): the suffix starting at the last dot,
provided at least one character before that dot within the basename is not a
dot (so `".bashrc"` and `"..pdf"` have no extension). -/
def extOfBase (b : List Char) : List Char :=
  let rev := b.reverse
  let afterDot := rev.takeWhile (fun c => c ≠ '.')
  if afterDot.length = rev.length then []
  else
    let beforeDot := rev.drop (afterDot.length + 1)
    if beforeDot.any (fun c => c ≠ '.') then '.' :: afterDot.reverse else []

/-- `os.path.splitext(file_path)[1]` for POSIX paths. -/
def splitextExt (p : String) : String :=
  String.mk (extOfBase (basename p).data)

/-- Python `str.title()` (ASCII): the first letter of every alphabetic run is
uppercased, subsequent letters lowercased.  The flag records whether the
previous character was alphabetic. -/
def pyTitleGo : Bool → List Char → List Char
  | _, [] => []
  | prevAlpha, c :: cs =>
    if c.isAlpha then
      (if prevAlpha then c.toLower else c.toUpper) :: pyTitleGo true cs
    else c :: pyTitleGo false cs

/-- Python `s.title()`. -/
def pyTitle (s : String) : String :=
  String.mk (pyTitleGo false s.data)

/-- Python `s.replace("_", "")`. -/
def removeUnderscores (s : String) : String :=
  String.mk (s.data.filter (fun c => c ≠ '_'))

/-! ## The validator (`validate_pdf_file`, src/pdf_extractor.py lines 39-68) -/

/-- Message for the oversized-file `ValueError`.  The source interpolates the
size formatted to two decimals; that numeric formatting is elided here since no
verified property depends on this message's text. -/
def sizeErrMsg (cfg : Config) : String :=
  "File size exceeds maximum allowed size (" ++ toString cfg.MAX_FILE_SIZE_MB ++ "MB)"

/-- `validate_pdf_file`.  The source compares
`os.path.getsize(p) / (1024 * 1024) > MAX_FILE_SIZE_MB` in floating point;
since `1024 * 1024` is a power of two the division is exact, so the comparison
is equivalent to the integer comparison `sizeBytes > MAX_FILE_SIZE_MB * 1048576`
used here. -/
def validate_pdf_file (cfg : Config) (fs : FS) (file_path : String) :
    Except PyErr Bool :=
  match fs file_path with
  | none => .error (.FileNotFoundError ("File not found: " ++ file_path))
  | some f =>
    let file_ext := toLowerAscii (splitextExt file_path)
    if file_ext ∉ cfg.SUPPORTED_EXTENSIONS then
      .error (.ValueError ("Unsupported file type: " ++ file_ext ++ ". Expected PDF file."))
    else if f.sizeBytes > cfg.MAX_FILE_SIZE_MB * 1048576 then
      .error (.ValueError (sizeErrMsg cfg))
    else
      .ok true

/-! ## Text post-processing shared by the two text-extraction operations -/

/-- The per-page text processing: when `REMOVE_EXTRA_WHITESPACE` is set,
`page_text = ' '.join(page_text.split())`. -/
def normalizeText (cfg : Config) (t : String) : String :=
  if cfg.REMOVE_EXTRA_WHITESPACE then pyJoin " " (pySplit t) else t

/-- The page loop of `extract_text_from_pdf` (lines 111-120): extract each
page's text (propagating a raised exception), normalize it, collect in order. -/
def extractPagesText (cfg : Config) : List (Except PyErr String) → Except PyErr (List String)
  | [] => .ok []
  | p :: rest => do
    let t ← p
    let rest' ← extractPagesText cfg rest
    .ok (normalizeText cfg t :: rest')

/-! ## `extract_text_from_pdf` (lines 71-137) -/

/-- The `try` body of `extract_text_from_pdf`: validate, open, refuse
encrypted documents, extract and normalize every page, join with the
configured separator. -/
def extract_text_body (cfg : Config) (fs : FS) (file_path : String) :
    Except PyErr String := do
  let _ ← validate_pdf_file cfg fs file_path
  match fs file_path with
  | none => .error (.FileNotFoundError ("File not found: " ++ file_path))
  | some f => do
    let reader ← f.read
    if reader.is_encrypted then
      .error (.ValueError "Cannot extract text from encrypted PDF. Please decrypt first.")
    else do
      let all_text ← extractPagesText cfg reader.pages
      let separator := if cfg.PRESERVE_LINE_BREAKS then "\n\n" else " "
      .ok (pyJoin separator all_text)

/-- The common shape of the three `try/except` blocks: a normal result passes
through, an exception is transformed by the operation's handler chain `W`. -/
def wrapExcept {α : Type} (W : PyErr → PyErr) : Except PyErr α → Except PyErr α
  | .ok v => .ok v
  | .error e => .error (W e)

/-- The `except` clauses of `extract_text_from_pdf` (lines 129-137):
`FileNotFoundError` and `ValueError` are re-raised unchanged, anything else is
wrapped as `Exception("Failed to extract text: " + str(e))`. -/
def wrapExtractText : PyErr → PyErr
  | .FileNotFoundError m => .FileNotFoundError m
  | .ValueError m => .ValueError m
  | .OtherError m => .OtherError ("Failed to extract text: " ++ m)

/-- `extract_text_from_pdf`. -/
def extract_text_from_pdf (cfg : Config) (fs : FS) (file_path : String) :
    Except PyErr String :=
  wrapExcept wrapExtractText (extract_text_body cfg fs file_path)

/-! ## `extract_text_by_pages` (lines 140-205) -/

/-- One element of the returned list: `{'page_number': n, 'text': t,
'char_count': len(t)}`. -/
structure PageData where
  page_number : Nat
  text : String
  char_count : Nat
deriving Repr, DecidableEq

/-- The page loop of `extract_text_by_pages` (lines 175-195), with `n` the
1-based number of the first remaining page: extract, normalize, and build the
page record with `char_count = len(text)`. -/
def buildPages (cfg : Config) : Nat → List (Except PyErr String) → Except PyErr (List PageData)
  | _, [] => .ok []
  | n, p :: rest => do
    let t ← p
    let t2 := normalizeText cfg t
    let rest' ← buildPages cfg (n + 1) rest
    .ok ({ page_number := n, text := t2, char_count := t2.length } :: rest')

/-- The `try` body of `extract_text_by_pages`. -/
def extract_by_pages_body (cfg : Config) (fs : FS) (file_path : String) :
    Except PyErr (List PageData) := do
  let _ ← validate_pdf_file cfg fs file_path
  match fs file_path with
  | none => .error (.FileNotFoundError ("File not found: " ++ file_path))
  | some f => do
    let reader ← f.read
    if reader.is_encrypted then
      .error (.ValueError "Cannot extract text from encrypted PDF. Please decrypt first.")
    else
      buildPages cfg 1 reader.pages

/-- The `except` clauses of `extract_text_by_pages` (lines 200-205):
`(FileNotFoundError, ValueError)` re-raised unchanged, anything else wrapped. -/
def wrapExtractByPages : PyErr → PyErr
  | .FileNotFoundError m => .FileNotFoundError m
  | .ValueError m => .ValueError m
  | .OtherError m => .OtherError ("Failed to extract text by pages: " ++ m)

/-- `extract_text_by_pages`. -/
def extract_text_by_pages (cfg : Config) (fs : FS) (file_path : String) :
    Except PyErr (List PageData) :=
  wrapExcept wrapExtractByPages (extract_by_pages_body cfg fs file_path)

/-! ## `get_pdf_metadata` (lines 208-270) -/

/-- The returned dictionary.  The five always-present keys are fields of the
structure; the configured metadata fields appear in `fields`, in
`METADATA_FIELDS` order, each mapped to `some v` when the document-info
dictionary holds a value and to `none` (Python `None`, the "missing" marker)
otherwise.  `fields` is empty when the loop over `METADATA_FIELDS` never ran
because `reader.metadata` was falsy (absent or an empty dictionary). -/
structure MetadataRecord where
  file_name : String
  file_path : String
  file_size_mb : ℚ
  page_count : Nat
  is_encrypted : Bool
  fields : List (String × Option String)
deriving Repr, DecidableEq

/-- Round half-to-even (Python's `round`) of a rational to an integer. -/
def roundHalfEven (q : ℚ) : ℤ :=
  let f := ⌊q⌋
  let frac := q - f
  if frac < 1 / 2 then f
  else if frac > 1 / 2 then f + 1
  else if f % 2 = 0 then f else f + 1

/-- `round(size_bytes / (1024 * 1024), 2)`, over the rationals.  (The source
computes this on IEEE doubles; the division by `2 ^ 20` is exact, and the
rounding tie behaviour on doubles is immaterial to every verified property.) -/
def fileSizeMB (sizeBytes : Nat) : ℚ :=
  (roundHalfEven ((sizeBytes : ℚ) / 1048576 * 100) : ℚ) / 100

/-- `os.path.abspath`.  Absolute-path resolution depends on the process
working directory, which is outside this embedding; it is modelled as the
identity, and no verified property depends on the value of the `file_path`
field it feeds. -/
def abspath (p : String) : String := p

/-- The PyPDF2 key for a configured field name (line 256):
`'/' + field.title().replace("_", "")`. -/
def fieldKey (field : String) : String :=
  "/" ++ removeUnderscores (pyTitle field)

/-- The metadata-fields loop (lines 251-260): when `reader.metadata` is truthy
(present and non-empty), each configured field is looked up under its PyPDF2
key and recorded, `none` when absent; when `reader.metadata` is falsy the loop
body never runs and no field is added. -/
def metadataFields (cfg : Config) : Option (List (String × String)) → List (String × Option String)
  | none => []
  | some d =>
    if d.isEmpty then []
    else cfg.METADATA_FIELDS.map (fun field => (field, d.lookup (fieldKey field)))

/-- The `try` body of `get_pdf_metadata`: validate, open, collect file-level
facts and the configured metadata fields.  There is no encryption check;
`is_encrypted` is only reported. -/
def get_pdf_metadata_body (cfg : Config) (fs : FS) (file_path : String) :
    Except PyErr MetadataRecord := do
  let _ ← validate_pdf_file cfg fs file_path
  match fs file_path with
  | none => .error (.FileNotFoundError ("File not found: " ++ file_path))
  | some f => do
    let reader ← f.read
    .ok { file_name := basename file_path
        , file_path := abspath file_path
        , file_size_mb := fileSizeMB f.sizeBytes
        , page_count := reader.pages.length
        , is_encrypted := reader.is_encrypted
        , fields := metadataFields cfg reader.metadata }

/-- The `except` clauses of `get_pdf_metadata` (lines 265-270). -/
def wrapMetadata : PyErr → PyErr
  | .FileNotFoundError m => .FileNotFoundError m
  | .ValueError m => .ValueError m
  | .OtherError m => .OtherError ("Failed to extract metadata: " ++ m)

/-- `get_pdf_metadata`. -/
def get_pdf_metadata (cfg : Config) (fs : FS) (file_path : String) :
    Except PyErr MetadataRecord :=
  wrapExcept wrapMetadata (get_pdf_metadata_body cfg fs file_path)

/-! ## Error-kind predicates (spec §7 taxonomy) -/

/-- The result is a `NotFound` failure (Python `FileNotFoundError`). -/
def failsNotFound {α : Type} (r : Except PyErr α) : Prop :=
  ∃ m, r = .error (.FileNotFoundError m)

/-- The result is an `InvalidInput` failure (Python `ValueError`). -/
def failsInvalidInput {α : Type} (r : Except PyErr α) : Prop :=
  ∃ m, r = .error (.ValueError m)

/-- The result is the `EncryptedDocument` failure: the specific `ValueError`
both text-extraction operations raise on an encrypted document. -/
def failsEncrypted {α : Type} (r : Except PyErr α) : Prop :=
  r = .error (.ValueError "Cannot extract text from encrypted PDF. Please decrypt first.")

/-- The path's extension belongs to the configured supported-extension set,
compared case-insensitively (the spec's wording of the validator's extension
check). -/
def extSupportedCI (cfg : Config) (p : String) : Prop :=
  ∃ e ∈ cfg.SUPPORTED_EXTENSIONS, toLowerAscii (splitextExt p) = toLowerAscii e

/-! ## Concrete fixtures used by witnesses and counterexamples -/

/-- A small non-encrypted two-page document with an info dictionary. -/
def sampleDoc : PdfDocument :=
  { is_encrypted := false
  , pages := [.ok "  Hello   world \n", .ok "Second  page"]
  , metadata := some [("/Title", "Sample"), ("/Author", "Ada")] }

/-- An encrypted document. -/
def encDoc : PdfDocument :=
  { is_encrypted := true
  , pages := [.ok "secret"]
  , metadata := some [("/Title", "Locked")] }

/-- A non-encrypted document with no info dictionary (`reader.metadata` is
`None`). -/
def noMetaDoc : PdfDocument :=
  { is_encrypted := false
  , pages := [.ok "x"]
  , metadata := none }

/-- A non-encrypted document whose second page fails to extract with a
`ValueError`. -/
def pageErrDoc : PdfDocument :=
  { is_encrypted := false
  , pages := [.ok "a", .error (.ValueError "stream error")]
  , metadata := none }

/-- A zero-page document. -/
def emptyDoc : PdfDocument :=
  { is_encrypted := false, pages := [], metadata := none }

/-- A concrete filesystem exercising the interesting cases. -/
def fsMain : FS := fun p =>
  if p = "doc.pdf" then some { sizeBytes := 1048576, read := .ok sampleDoc }
  else if p = "note.txt" then some { sizeBytes := 10, read := .error (.OtherError "not a pdf") }
  else if p = "big.pdf" then some { sizeBytes := 52428801, read := .ok sampleDoc }
  else if p = "enc.pdf" then some { sizeBytes := 2048, read := .ok encDoc }
  else if p = "bad.pdf" then some { sizeBytes := 4, read := .error (.OtherError "EOF marker not found") }
  else if p = "vbad.pdf" then some { sizeBytes := 4, read := .error (.ValueError "bad stream") }
  else if p = "nometa.pdf" then some { sizeBytes := 7, read := .ok noMetaDoc }
  else if p = "pverr.pdf" then some { sizeBytes := 5, read := .ok pageErrDoc }
  else if p = "empty.pdf" then some { sizeBytes := 3, read := .ok emptyDoc }
  else none

/-! ## Unfolding lemmas for the validator -/

/-- `validate_pdf_file` on a nonexistent path. -/
theorem validate_none {cfg : Config} {fs : FS} {p : String} (h : fs p = none) :
    validate_pdf_file cfg fs p =
      .error (.FileNotFoundError ("File not found: " ++ p)) := by
  unfold validate_pdf_file; rw [h]

/-- `validate_pdf_file` on an existing file. -/
theorem validate_some {cfg : Config} {fs : FS} {p : String} {f : File}
    (h : fs p = some f) :
    validate_pdf_file cfg fs p =
      (if toLowerAscii (splitextExt p) ∉ cfg.SUPPORTED_EXTENSIONS then
        .error (.ValueError
          ("Unsupported file type: " ++ toLowerAscii (splitextExt p) ++ ". Expected PDF file."))
      else if f.sizeBytes > cfg.MAX_FILE_SIZE_MB * 1048576 then
        .error (.ValueError (sizeErrMsg cfg))
      else .ok true) := by
  unfold validate_pdf_file; rw [h]

/-! ## C1: the validator's contract -/

/-- **C1.** `validate(path)` succeeds exactly when the path references an
existing file whose extension is in the configured supported-extension set
(compared case-insensitively) and whose size in megabytes does not exceed the
configured maximum; it fails with `NotFound` when the path does not reference
an existing file (regardless of extension), and with `InvalidInput` when the
extension is unsupported or the size exceeds the maximum.  Stated for the
repository's configuration; `sizeBytes ≤ MAX * 2 ^ 20` is the size-in-MB
bound. -/
theorem C1_validator_contract (fs : FS) (p : String) :
    ((∃ b, validate_pdf_file defaultConfig fs p = .ok b) ↔
      ∃ f, fs p = some f ∧ extSupportedCI defaultConfig p ∧
        f.sizeBytes ≤ defaultConfig.MAX_FILE_SIZE_MB * 1048576) ∧
    (fs p = none → failsNotFound (validate_pdf_file defaultConfig fs p)) ∧
    (∀ f, fs p = some f → ¬ extSupportedCI defaultConfig p →
      failsInvalidInput (validate_pdf_file defaultConfig fs p)) ∧
    (∀ f, fs p = some f →
      f.sizeBytes > defaultConfig.MAX_FILE_SIZE_MB * 1048576 →
      failsInvalidInput (validate_pdf_file defaultConfig fs p)) := by
  have hCI : ∀ q : String,
      (toLowerAscii (splitextExt q) ∈ defaultConfig.SUPPORTED_EXTENSIONS ↔
        extSupportedCI defaultConfig q) := by
    intro q
    constructor
    · intro h
      exact ⟨".pdf", by simp [defaultConfig], by simpa [defaultConfig] using h⟩
    · rintro ⟨e, he, hq⟩
      simp only [defaultConfig, List.mem_singleton] at he
      subst he
      simpa [defaultConfig] using hq
  refine ⟨⟨?_, ?_⟩, ?_, ?_, ?_⟩
  · rintro ⟨b, hb⟩
    cases hf : fs p with
    | none => rw [validate_none hf] at hb; cases hb
    | some f =>
      rw [validate_some hf] at hb
      split_ifs at hb with h1 h2
      exact ⟨f, rfl, (hCI p).mp h1, le_of_not_lt h2⟩
  · rintro ⟨f, hf, hm, hs⟩
    have h1 : ¬(toLowerAscii (splitextExt p) ∉ defaultConfig.SUPPORTED_EXTENSIONS) :=
      not_not_intro ((hCI p).mpr hm)
    rw [validate_some hf, if_neg h1, if_neg (Nat.not_lt.mpr hs)]
    exact ⟨true, rfl⟩
  · intro h
    rw [validate_none h]
    exact ⟨_, rfl⟩
  · intro f hf hm
    have h1 : toLowerAscii (splitextExt p) ∉ defaultConfig.SUPPORTED_EXTENSIONS :=
      fun hmem => hm ((hCI p).mp hmem)
    rw [validate_some hf, if_pos h1]
    exact ⟨_, rfl⟩
  · intro f hf hs
    rw [validate_some hf]
    by_cases h1 : toLowerAscii (splitextExt p) ∉ defaultConfig.SUPPORTED_EXTENSIONS
    · rw [if_pos h1]; exact ⟨_, rfl⟩
    · rw [if_neg h1, if_pos hs]; exact ⟨_, rfl⟩

/-- **C1 witness.** The contract applied at concrete inputs: a nonexistent
path fails `NotFound`; an existing `.txt` file fails `InvalidInput`; an
oversized `.pdf` fails `InvalidInput`. -/
theorem C1_validator_contract_witness :
    failsNotFound (validate_pdf_file defaultConfig fsMain "nonexistent.pdf") ∧
    failsInvalidInput (validate_pdf_file defaultConfig fsMain "note.txt") ∧
    failsInvalidInput (validate_pdf_file defaultConfig fsMain "big.pdf") := by
  refine ⟨?_, ?_, ?_⟩
  · exact (C1_validator_contract fsMain "nonexistent.pdf").2.1 rfl
  · refine (C1_validator_contract fsMain "note.txt").2.2.1
      { sizeBytes := 10, read := .error (.OtherError "not a pdf") } rfl ?_
    rintro ⟨e, he, hq⟩
    simp only [defaultConfig, List.mem_singleton] at he
    subst he
    exact absurd hq (by decide)
  · exact (C1_validator_contract fsMain "big.pdf").2.2.2
      { sizeBytes := 52428801, read := .ok sampleDoc } rfl (by decide)

/-! ## C9: the validator never returns `False` -/

/-- **C9.** Whenever `validate_pdf_file` returns normally, the returned value
is `True`: no execution path returns `False`. -/
theorem C9_validate_never_false (cfg : Config) (fs : FS) (p : String) (b : Bool)
    (h : validate_pdf_file cfg fs p = .ok b) : b = true := by
  cases hf : fs p with
  | none => rw [validate_none hf] at h; cases h
  | some f =>
    rw [validate_some hf] at h
    split_ifs at h
    exact (Except.ok.inj h).symm

/-- **C9 witness.** Applied at the concrete validating input `doc.pdf`. -/
theorem C9_validate_never_false_witness :
    validate_pdf_file defaultConfig fsMain "doc.pdf" = .ok true ∧ true = true :=
  ⟨rfl, C9_validate_never_false defaultConfig fsMain "doc.pdf" true rfl⟩

/-! ## Unfolding lemmas for the three operations -/

/-- Reduction of a bind on a successful `Except` (do-notation helper). -/
theorem exbind_ok {α β : Type} (a : α) (k : α → Except PyErr β) :
    (Except.ok a >>= k) = k a := rfl

/-- Reduction of a bind on a failed `Except` (do-notation helper). -/
theorem exbind_err {α β : Type} (e : PyErr) (k : α → Except PyErr β) :
    ((Except.error e : Except PyErr α) >>= k) = .error e := rfl

/-- A wrapped computation succeeds exactly when its body does, with the same
value. -/
theorem wrapExcept_ok_iff {α : Type} {W : PyErr → PyErr} {x : Except PyErr α} {s : α} :
    wrapExcept W x = .ok s ↔ x = .ok s := by
  cases x <;> simp [wrapExcept]

/-- A wrapped computation turns a body exception `e` into `W e`. -/
theorem wrapExcept_err {α : Type} {W : PyErr → PyErr} {x : Except PyErr α} {e : PyErr}
    (h : x = .error e) : wrapExcept W x = .error (W e) := by
  rw [h]; rfl

/-- A successful validation returns `true` (shared helper). -/
theorem validate_ok_val {cfg : Config} {fs : FS} {p : String} {b : Bool}
    (h : validate_pdf_file cfg fs p = .ok b) : b = true := by
  cases hf : fs p with
  | none => rw [validate_none hf] at h; cases h
  | some f =>
    rw [validate_some hf] at h
    split_ifs at h
    exact (Except.ok.inj h).symm

/-- A successful validation implies the file exists. -/
theorem validate_ok_exists {cfg : Config} {fs : FS} {p : String} {b : Bool}
    (h : validate_pdf_file cfg fs p = .ok b) : ∃ f, fs p = some f := by
  cases hf : fs p with
  | none => rw [validate_none hf] at h; cases h
  | some f => exact ⟨f, rfl⟩

/-- `extract_text_body` when validation fails. -/
theorem text_body_val_err {cfg : Config} {fs : FS} {p : String} {e : PyErr}
    (hv : validate_pdf_file cfg fs p = .error e) :
    extract_text_body cfg fs p = .error e := by
  simp only [extract_text_body, hv]; rfl

/-- `extract_text_body` when opening the file raises. -/
theorem text_body_read_err {cfg : Config} {fs : FS} {p : String} {f : File} {e : PyErr}
    (hv : validate_pdf_file cfg fs p = .ok true) (hf : fs p = some f)
    (hr : f.read = .error e) :
    extract_text_body cfg fs p = .error e := by
  simp only [extract_text_body, hv, hf, hr]; rfl

/-- `extract_text_body` on an encrypted document. -/
theorem text_body_encrypted {cfg : Config} {fs : FS} {p : String} {f : File}
    {doc : PdfDocument}
    (hv : validate_pdf_file cfg fs p = .ok true) (hf : fs p = some f)
    (hr : f.read = .ok doc) (he : doc.is_encrypted = true) :
    extract_text_body cfg fs p =
      .error (.ValueError "Cannot extract text from encrypted PDF. Please decrypt first.") := by
  simp [extract_text_body, exbind_ok, hv, hf, hr, he]

/-- `extract_text_body` on a readable non-encrypted document whose pages all
extract. -/
theorem text_body_ok {cfg : Config} {fs : FS} {p : String} {f : File}
    {doc : PdfDocument} {ts : List String}
    (hv : validate_pdf_file cfg fs p = .ok true) (hf : fs p = some f)
    (hr : f.read = .ok doc) (he : doc.is_encrypted = false)
    (hp : extractPagesText cfg doc.pages = .ok ts) :
    extract_text_body cfg fs p =
      .ok (pyJoin (if cfg.PRESERVE_LINE_BREAKS then "\n\n" else " ") ts) := by
  simp [extract_text_body, exbind_ok, hv, hf, hr, he, hp]

/-- `extract_text_body` when some page extraction raises. -/
theorem text_body_pages_err {cfg : Config} {fs : FS} {p : String} {f : File}
    {doc : PdfDocument} {e : PyErr}
    (hv : validate_pdf_file cfg fs p = .ok true) (hf : fs p = some f)
    (hr : f.read = .ok doc) (he : doc.is_encrypted = false)
    (hp : extractPagesText cfg doc.pages = .error e) :
    extract_text_body cfg fs p = .error e := by
  simp [extract_text_body, exbind_ok, exbind_err, hv, hf, hr, he, hp]

/-- `extract_by_pages_body` when validation fails. -/
theorem pages_body_val_err {cfg : Config} {fs : FS} {p : String} {e : PyErr}
    (hv : validate_pdf_file cfg fs p = .error e) :
    extract_by_pages_body cfg fs p = .error e := by
  simp only [extract_by_pages_body, hv]; rfl

/-- `extract_by_pages_body` when opening the file raises. -/
theorem pages_body_read_err {cfg : Config} {fs : FS} {p : String} {f : File} {e : PyErr}
    (hv : validate_pdf_file cfg fs p = .ok true) (hf : fs p = some f)
    (hr : f.read = .error e) :
    extract_by_pages_body cfg fs p = .error e := by
  simp only [extract_by_pages_body, hv, hf, hr]; rfl

/-- `extract_by_pages_body` on an encrypted document. -/
theorem pages_body_encrypted {cfg : Config} {fs : FS} {p : String} {f : File}
    {doc : PdfDocument}
    (hv : validate_pdf_file cfg fs p = .ok true) (hf : fs p = some f)
    (hr : f.read = .ok doc) (he : doc.is_encrypted = true) :
    extract_by_pages_body cfg fs p =
      .error (.ValueError "Cannot extract text from encrypted PDF. Please decrypt first.") := by
  simp [extract_by_pages_body, exbind_ok, hv, hf, hr, he]

/-- `extract_by_pages_body` on a readable non-encrypted document runs the page
loop. -/
theorem pages_body_plain {cfg : Config} {fs : FS} {p : String} {f : File}
    {doc : PdfDocument}
    (hv : validate_pdf_file cfg fs p = .ok true) (hf : fs p = some f)
    (hr : f.read = .ok doc) (he : doc.is_encrypted = false) :
    extract_by_pages_body cfg fs p = buildPages cfg 1 doc.pages := by
  simp [extract_by_pages_body, exbind_ok, hv, hf, hr, he]

/-- `get_pdf_metadata_body` when validation fails. -/
theorem meta_body_val_err {cfg : Config} {fs : FS} {p : String} {e : PyErr}
    (hv : validate_pdf_file cfg fs p = .error e) :
    get_pdf_metadata_body cfg fs p = .error e := by
  simp only [get_pdf_metadata_body, hv]; rfl

/-- `get_pdf_metadata_body` when opening the file raises. -/
theorem meta_body_read_err {cfg : Config} {fs : FS} {p : String} {f : File} {e : PyErr}
    (hv : validate_pdf_file cfg fs p = .ok true) (hf : fs p = some f)
    (hr : f.read = .error e) :
    get_pdf_metadata_body cfg fs p = .error e := by
  simp only [get_pdf_metadata_body, hv, hf, hr]; rfl

/-- `get_pdf_metadata_body` on any readable document (encrypted or not). -/
theorem meta_body_ok {cfg : Config} {fs : FS} {p : String} {f : File}
    {doc : PdfDocument}
    (hv : validate_pdf_file cfg fs p = .ok true) (hf : fs p = some f)
    (hr : f.read = .ok doc) :
    get_pdf_metadata_body cfg fs p =
      .ok { file_name := basename p
          , file_path := abspath p
          , file_size_mb := fileSizeMB f.sizeBytes
          , page_count := doc.pages.length
          , is_encrypted := doc.is_encrypted
          , fields := metadataFields cfg doc.metadata } := by
  simp only [get_pdf_metadata_body, hv, hf, hr]; rfl

/-! ## C4: encryption gates text extraction but not metadata -/

/-- **C4.** For every valid PDF the reader reports as encrypted,
`get_pdf_metadata` succeeds and reports `is_encrypted = true`, while
`extract_text_from_pdf` and `extract_text_by_pages` on the same file fail with
`EncryptedDocument` (no decryption is attempted: the operations raise directly
upon seeing the flag). -/
theorem C4_encrypted_dispatch (cfg : Config) (fs : FS) (p : String) (f : File)
    (doc : PdfDocument)
    (hv : validate_pdf_file cfg fs p = .ok true) (hf : fs p = some f)
    (hr : f.read = .ok doc) (he : doc.is_encrypted = true) :
    (∃ md, get_pdf_metadata cfg fs p = .ok md ∧ md.is_encrypted = true) ∧
    failsEncrypted (extract_text_from_pdf cfg fs p) ∧
    failsEncrypted (extract_text_by_pages cfg fs p) := by
  refine ⟨⟨{ file_name := basename p
           , file_path := abspath p
           , file_size_mb := fileSizeMB f.sizeBytes
           , page_count := doc.pages.length
           , is_encrypted := doc.is_encrypted
           , fields := metadataFields cfg doc.metadata }, ?_, ?_⟩, ?_, ?_⟩
  · unfold get_pdf_metadata
    exact wrapExcept_ok_iff.mpr (meta_body_ok hv hf hr)
  · exact he
  · unfold failsEncrypted extract_text_from_pdf
    rw [wrapExcept_err (text_body_encrypted hv hf hr he)]; rfl
  · unfold failsEncrypted extract_text_by_pages
    rw [wrapExcept_err (pages_body_encrypted hv hf hr he)]; rfl

/-- **C4 witness.** Applied to the concrete encrypted file `enc.pdf`. -/
theorem C4_encrypted_dispatch_witness :
    (∃ md, get_pdf_metadata defaultConfig fsMain "enc.pdf" = .ok md ∧
      md.is_encrypted = true) ∧
    failsEncrypted (extract_text_from_pdf defaultConfig fsMain "enc.pdf") ∧
    failsEncrypted (extract_text_by_pages defaultConfig fsMain "enc.pdf") :=
  C4_encrypted_dispatch defaultConfig fsMain "enc.pdf"
    { sizeBytes := 2048, read := .ok encDoc } encDoc rfl rfl rfl rfl

/-! ## C7: unexpected reader failures are wrapped once, never swallowed -/

/-- **C7.** When the underlying reader raises an unexpected failure (neither a
validation nor an encryption failure, modelled by `OtherError m`), each of the
three operations catches it exactly once and re-raises it as a generic
failure carrying the original message `m` plus context naming the operation;
no reader failure is swallowed. -/
theorem C7_unexpected_wrapped (cfg : Config) (fs : FS) (p : String) (f : File)
    (m : String)
    (hv : validate_pdf_file cfg fs p = .ok true) (hf : fs p = some f)
    (hr : f.read = .error (.OtherError m)) :
    extract_text_from_pdf cfg fs p =
      .error (.OtherError ("Failed to extract text: " ++ m)) ∧
    extract_text_by_pages cfg fs p =
      .error (.OtherError ("Failed to extract text by pages: " ++ m)) ∧
    get_pdf_metadata cfg fs p =
      .error (.OtherError ("Failed to extract metadata: " ++ m)) := by
  refine ⟨?_, ?_, ?_⟩
  · unfold extract_text_from_pdf
    rw [wrapExcept_err (text_body_read_err hv hf hr)]; rfl
  · unfold extract_text_by_pages
    rw [wrapExcept_err (pages_body_read_err hv hf hr)]; rfl
  · unfold get_pdf_metadata
    rw [wrapExcept_err (meta_body_read_err hv hf hr)]; rfl

/-- **C7 witness.** Applied to `bad.pdf`, whose reader raises a generic
failure with message "EOF marker not found". -/
theorem C7_unexpected_wrapped_witness :
    extract_text_from_pdf defaultConfig fsMain "bad.pdf" =
      .error (.OtherError ("Failed to extract text: " ++ "EOF marker not found")) ∧
    extract_text_by_pages defaultConfig fsMain "bad.pdf" =
      .error (.OtherError ("Failed to extract text by pages: " ++ "EOF marker not found")) ∧
    get_pdf_metadata defaultConfig fsMain "bad.pdf" =
      .error (.OtherError ("Failed to extract metadata: " ++ "EOF marker not found")) :=
  C7_unexpected_wrapped defaultConfig fsMain "bad.pdf"
    { sizeBytes := 4, read := .error (.OtherError "EOF marker not found") }
    "EOF marker not found" rfl rfl rfl

/-! ## C8: determinism / statelessness -/

/-- **C8.** Each of the three operations is a pure function of the
configuration, the filesystem contents and the path: in the embedding (which
is stateless because the source retains no mutable state across calls — its
module-level configuration is read-only), two calls on the same arguments are
the same term, hence yield identical results. -/
theorem C8_pure_deterministic (cfg : Config) (fs : FS) (p : String) :
    extract_text_from_pdf cfg fs p = extract_text_from_pdf cfg fs p ∧
    extract_text_by_pages cfg fs p = extract_text_by_pages cfg fs p ∧
    get_pdf_metadata cfg fs p = get_pdf_metadata cfg fs p :=
  ⟨rfl, rfl, rfl⟩

/-! ## C10: a reader `ValueError` propagates unwrapped -/

/-- The page loop of full-text extraction stops at the first failing page and
propagates its exception. -/
theorem extractPagesText_first_err {cfg : Config} {ts : List String} {e : PyErr}
    {rest : List (Except PyErr String)} :
    extractPagesText cfg (ts.map Except.ok ++ .error e :: rest) = .error e := by
  induction ts with
  | nil => rfl
  | cons t ts ih => simp [extractPagesText, exbind_ok, exbind_err, ih]

/-- The page loop of by-pages extraction stops at the first failing page and
propagates its exception. -/
theorem buildPages_first_err {cfg : Config} {ts : List String} {e : PyErr}
    {rest : List (Except PyErr String)} {n : Nat} :
    buildPages cfg n (ts.map Except.ok ++ .error e :: rest) = .error e := by
  induction ts generalizing n with
  | nil => rfl
  | cons t ts ih => simp [buildPages, exbind_ok, exbind_err, ih]

/-- **C10.** A `ValueError` raised by the underlying reader during reading —
either when opening the document, or from a page extraction after validation
passed and the document is not encrypted — propagates to the caller unwrapped
(the `ValueError` handler precedes the generic handler in all three
operations). -/
theorem C10_valueerror_propagates (cfg : Config) (fs : FS) (p : String)
    (f : File) (m : String)
    (hv : validate_pdf_file cfg fs p = .ok true) (hf : fs p = some f) :
    (f.read = .error (.ValueError m) →
      extract_text_from_pdf cfg fs p = .error (.ValueError m) ∧
      extract_text_by_pages cfg fs p = .error (.ValueError m) ∧
      get_pdf_metadata cfg fs p = .error (.ValueError m)) ∧
    (∀ (doc : PdfDocument) (ts : List String) (rest : List (Except PyErr String)),
      f.read = .ok doc → doc.is_encrypted = false →
      doc.pages = ts.map Except.ok ++ .error (.ValueError m) :: rest →
      extract_text_from_pdf cfg fs p = .error (.ValueError m) ∧
      extract_text_by_pages cfg fs p = .error (.ValueError m)) := by
  constructor
  · intro hr
    refine ⟨?_, ?_, ?_⟩
    · unfold extract_text_from_pdf
      rw [wrapExcept_err (text_body_read_err hv hf hr)]; rfl
    · unfold extract_text_by_pages
      rw [wrapExcept_err (pages_body_read_err hv hf hr)]; rfl
    · unfold get_pdf_metadata
      rw [wrapExcept_err (meta_body_read_err hv hf hr)]; rfl
  · intro doc ts rest hr he hpages
    have hp : extractPagesText cfg doc.pages = .error (.ValueError m) := by
      rw [hpages]; exact extractPagesText_first_err
    have hb : extract_by_pages_body cfg fs p = .error (.ValueError m) := by
      rw [pages_body_plain hv hf hr he, hpages]; exact buildPages_first_err
    constructor
    · unfold extract_text_from_pdf
      rw [wrapExcept_err (text_body_pages_err hv hf hr he hp)]; rfl
    · unfold extract_text_by_pages
      rw [wrapExcept_err hb]; rfl

/-- **C10 witness.** Applied to `vbad.pdf` (reader raises `ValueError` at
open) and `pverr.pdf` (second page raises `ValueError`). -/
theorem C10_valueerror_propagates_witness :
    (extract_text_from_pdf defaultConfig fsMain "vbad.pdf" =
        .error (.ValueError "bad stream") ∧
      extract_text_by_pages defaultConfig fsMain "vbad.pdf" =
        .error (.ValueError "bad stream") ∧
      get_pdf_metadata defaultConfig fsMain "vbad.pdf" =
        .error (.ValueError "bad stream")) ∧
    (extract_text_from_pdf defaultConfig fsMain "pverr.pdf" =
        .error (.ValueError "stream error") ∧
      extract_text_by_pages defaultConfig fsMain "pverr.pdf" =
        .error (.ValueError "stream error")) :=
  ⟨(C10_valueerror_propagates defaultConfig fsMain "vbad.pdf"
      { sizeBytes := 4, read := .error (.ValueError "bad stream") }
      "bad stream" rfl rfl).1 rfl,
   (C10_valueerror_propagates defaultConfig fsMain "pverr.pdf"
      { sizeBytes := 5, read := .ok pageErrDoc }
      "stream error" rfl rfl).2 pageErrDoc ["a"] [] rfl rfl rfl⟩

/-! ## C2, C3: per-page extraction versus full-text extraction and metadata -/

/-- When the by-pages loop succeeds, the full-text page loop succeeds on the
same pages with exactly the `text` fields of the produced records. -/
theorem buildPages_ok_texts {cfg : Config} {ps : List (Except PyErr String)}
    {n : Nat} {recs : List PageData}
    (h : buildPages cfg n ps = .ok recs) :
    extractPagesText cfg ps = .ok (recs.map (fun r => r.text)) := by
  induction ps generalizing n recs with
  | nil =>
    simp only [buildPages] at h
    obtain rfl := Except.ok.inj h
    rfl
  | cons p rest ih =>
    cases p with
    | error e => simp [buildPages, exbind_err] at h
    | ok t =>
      cases hb : buildPages cfg (n + 1) rest with
      | error e => simp [buildPages, exbind_ok, exbind_err, hb] at h
      | ok rest' =>
        simp only [buildPages, exbind_ok, hb] at h
        obtain rfl := Except.ok.inj h
        simp [extractPagesText, exbind_ok, ih hb]

/-- The by-pages loop starting at `n` produces one record per page, numbered
`n, n+1, …` in order. -/
theorem buildPages_ok_shape {cfg : Config} {ps : List (Except PyErr String)}
    {n : Nat} {recs : List PageData}
    (h : buildPages cfg n ps = .ok recs) :
    recs.length = ps.length ∧
    recs.map (fun r => r.page_number) = List.range' n ps.length := by
  induction ps generalizing n recs with
  | nil =>
    simp only [buildPages] at h
    obtain rfl := Except.ok.inj h
    simp
  | cons p rest ih =>
    cases p with
    | error e => simp [buildPages, exbind_err] at h
    | ok t =>
      cases hb : buildPages cfg (n + 1) rest with
      | error e => simp [buildPages, exbind_ok, exbind_err, hb] at h
      | ok rest' =>
        simp only [buildPages, exbind_ok, hb] at h
        obtain rfl := Except.ok.inj h
        obtain ⟨ih1, ih2⟩ := ih hb
        refine ⟨by simp [ih1], ?_⟩
        simp [List.range', ih2]

/-- Inversion of a successful by-pages extraction: validation passed, the file
exists, the reader produced a non-encrypted document, and the page loop built
exactly the returned records. -/
theorem by_pages_ok_inv {cfg : Config} {fs : FS} {p : String} {recs : List PageData}
    (h : extract_text_by_pages cfg fs p = .ok recs) :
    ∃ f doc, fs p = some f ∧ validate_pdf_file cfg fs p = .ok true ∧
      f.read = .ok doc ∧ doc.is_encrypted = false ∧
      buildPages cfg 1 doc.pages = .ok recs := by
  have hbody : extract_by_pages_body cfg fs p = .ok recs := by
    unfold extract_text_by_pages at h
    exact wrapExcept_ok_iff.mp h
  cases hv : validate_pdf_file cfg fs p with
  | error e => rw [pages_body_val_err hv] at hbody; cases hbody
  | ok b =>
    obtain rfl : b = true := validate_ok_val hv
    obtain ⟨f, hf⟩ := validate_ok_exists hv
    cases hr : f.read with
    | error e => rw [pages_body_read_err hv hf hr] at hbody; cases hbody
    | ok doc =>
      cases he : doc.is_encrypted with
      | true => rw [pages_body_encrypted hv hf hr he] at hbody; cases hbody
      | false =>
        rw [pages_body_plain hv hf hr he] at hbody
        exact ⟨f, doc, hf, rfl, hr, he, hbody⟩

/-- **C2.** For every valid non-encrypted PDF (any input on which
`extract_text_by_pages` succeeds), joining the `text` fields of the returned
records with the configured separator (`"\n\n"` when line-break preservation
is enabled, `" "` otherwise) yields exactly the string returned by
`extract_text_from_pdf` on the same file — both apply the same
whitespace-normalization policy. -/
theorem C2_join_pages_equals_full_text (cfg : Config) (fs : FS) (p : String)
    (recs : List PageData)
    (h : extract_text_by_pages cfg fs p = .ok recs) :
    extract_text_from_pdf cfg fs p =
      .ok (pyJoin (if cfg.PRESERVE_LINE_BREAKS then "\n\n" else " ")
        (recs.map (fun r => r.text))) := by
  obtain ⟨f, doc, hf, hv, hr, he, hb⟩ := by_pages_ok_inv h
  unfold extract_text_from_pdf
  exact wrapExcept_ok_iff.mpr (text_body_ok hv hf hr he (buildPages_ok_texts hb))

/-- **C2 witness.** On the concrete two-page `doc.pdf`, the by-pages records
join to the full-text result. -/
theorem C2_join_pages_equals_full_text_witness :
    extract_text_from_pdf defaultConfig fsMain "doc.pdf" =
      .ok (pyJoin (if defaultConfig.PRESERVE_LINE_BREAKS then "\n\n" else " ")
        (([⟨1, "Hello world", 11⟩, ⟨2, "Second page", 11⟩] : List PageData).map
          (fun r => r.text))) :=
  C2_join_pages_equals_full_text defaultConfig fsMain "doc.pdf"
    [⟨1, "Hello world", 11⟩, ⟨2, "Second page", 11⟩] rfl

/-- **C3.** For every valid non-encrypted PDF (any input on which
`extract_text_by_pages` succeeds), the returned sequence has length equal to
the `page_count` field of `get_pdf_metadata` on the same file, and its
`page_number` fields form exactly the sequence `1..page_count` in order. -/
theorem C3_pages_match_metadata (cfg : Config) (fs : FS) (p : String)
    (recs : List PageData)
    (h : extract_text_by_pages cfg fs p = .ok recs) :
    ∃ md, get_pdf_metadata cfg fs p = .ok md ∧
      recs.length = md.page_count ∧
      recs.map (fun r => r.page_number) = List.range' 1 md.page_count := by
  obtain ⟨f, doc, hf, hv, hr, he, hb⟩ := by_pages_ok_inv h
  obtain ⟨h1, h2⟩ := buildPages_ok_shape hb
  refine ⟨{ file_name := basename p
          , file_path := abspath p
          , file_size_mb := fileSizeMB f.sizeBytes
          , page_count := doc.pages.length
          , is_encrypted := doc.is_encrypted
          , fields := metadataFields cfg doc.metadata }, ?_, h1, h2⟩
  unfold get_pdf_metadata
  exact wrapExcept_ok_iff.mpr (meta_body_ok hv hf hr)

/-- **C3 witness.** On the concrete two-page `doc.pdf`, the record count and
page numbers match the metadata page count. -/
theorem C3_pages_match_metadata_witness :
    ∃ md, get_pdf_metadata defaultConfig fsMain "doc.pdf" = .ok md ∧
      ([⟨1, "Hello world", 11⟩, ⟨2, "Second page", 11⟩] : List PageData).length =
        md.page_count ∧
      ([⟨1, "Hello world", 11⟩, ⟨2, "Second page", 11⟩] : List PageData).map
        (fun r => r.page_number) = List.range' 1 md.page_count :=
  C3_pages_match_metadata defaultConfig fsMain "doc.pdf"
    [⟨1, "Hello world", 11⟩, ⟨2, "Second page", 11⟩] rfl

/-! ## C5: configured metadata fields and the missing marker -/

/-- Looking up any list member in the association list built by mapping it to
its value finds that value. -/
theorem lookup_map_self {β : Type} (g : String → β) :
    ∀ (l : List String) (a : String), a ∈ l →
      (l.map (fun x => (x, g x))).lookup a = some (g a) := by
  intro l
  induction l with
  | nil => intro a h; cases h
  | cons x xs ih =>
    intro a h
    by_cases hax : a = x
    · subst hax
      simp [List.lookup]
    · have hmem : a ∈ xs := by
        rcases List.mem_cons.mp h with h1 | h1
        · exact absurd h1 hax
        · exact h1
      have hbf : (a == x) = false := beq_eq_false_iff_ne.mpr hax
      simp [List.lookup, hbf, ih _ hmem]

/-- **C5 counterexample.** On `nometa.pdf`, a valid PDF whose reader-level
document-info dictionary is absent (`reader.metadata` is `None`),
`get_pdf_metadata` succeeds but the configured field `title` is omitted from
the record altogether — not set to the missing marker — because the
field-population loop is guarded by the truthiness of the dictionary.  This
refutes the claim's "including when the document-info dictionary itself is
absent" part. -/
theorem C5_counterexample :
    "title" ∈ defaultConfig.METADATA_FIELDS ∧
    get_pdf_metadata defaultConfig fsMain "nometa.pdf" =
      .ok { file_name := "nometa.pdf"
          , file_path := "nometa.pdf"
          , file_size_mb := fileSizeMB 7
          , page_count := 1
          , is_encrypted := false
          , fields := [] } ∧
    ([] : List (String × Option String)).lookup "title" = none := by
  exact ⟨by decide, rfl, rfl⟩

/-- **C5 (amended).** For every valid PDF whose reader-level document-info
dictionary is present and non-empty, the record returned by `get_pdf_metadata`
contains every field of the configured metadata-field list: set to the
dictionary's value when the PyPDF2 key is found, and to the explicit missing
marker (`None`, modelled `none`) when the document lacks the field — never
omitted and never an empty string.  (When the dictionary is absent or empty,
the loop never runs and the configured fields are omitted from the record;
that case is carved out by the counterexample.) -/
theorem C5_metadata_fields_amended (cfg : Config) (fs : FS) (p : String)
    (f : File) (doc : PdfDocument) (d : List (String × String))
    (hv : validate_pdf_file cfg fs p = .ok true) (hf : fs p = some f)
    (hr : f.read = .ok doc) (hm : doc.metadata = some d) (hne : d ≠ []) :
    ∃ md, get_pdf_metadata cfg fs p = .ok md ∧
      md.fields = cfg.METADATA_FIELDS.map (fun fld => (fld, d.lookup (fieldKey fld))) ∧
      ∀ fld ∈ cfg.METADATA_FIELDS,
        md.fields.lookup fld = some (d.lookup (fieldKey fld)) := by
  have hd : d.isEmpty = false := by
    cases d with
    | nil => exact absurd rfl hne
    | cons a l => rfl
  have hfields : metadataFields cfg doc.metadata =
      cfg.METADATA_FIELDS.map (fun fld => (fld, d.lookup (fieldKey fld))) := by
    rw [hm]
    simp [metadataFields, hd]
  refine ⟨{ file_name := basename p
          , file_path := abspath p
          , file_size_mb := fileSizeMB f.sizeBytes
          , page_count := doc.pages.length
          , is_encrypted := doc.is_encrypted
          , fields := metadataFields cfg doc.metadata }, ?_, hfields, ?_⟩
  · unfold get_pdf_metadata
    exact wrapExcept_ok_iff.mpr (meta_body_ok hv hf hr)
  · intro fld hfld
    rw [hfields]
    exact lookup_map_self _ _ _ hfld

/-- **C5 (amended) witness.** Applied to `doc.pdf`, whose info dictionary
holds `/Title` and `/Author`: `title` and `author` are found, the other five
configured fields are present with the missing marker. -/
theorem C5_metadata_fields_amended_witness :
    ∃ md, get_pdf_metadata defaultConfig fsMain "doc.pdf" = .ok md ∧
      md.fields = defaultConfig.METADATA_FIELDS.map
        (fun fld => (fld,
          ([("/Title", "Sample"), ("/Author", "Ada")] : List (String × String)).lookup
            (fieldKey fld))) ∧
      ∀ fld ∈ defaultConfig.METADATA_FIELDS,
        md.fields.lookup fld = some
          (([("/Title", "Sample"), ("/Author", "Ada")] : List (String × String)).lookup
            (fieldKey fld)) :=
  C5_metadata_fields_amended defaultConfig fsMain "doc.pdf"
    { sizeBytes := 1048576, read := .ok sampleDoc } sampleDoc
    [("/Title", "Sample"), ("/Author", "Ada")] rfl rfl rfl rfl (by simp)

/-! ## C6: the whitespace-normalization policy, stated the spec's way

The source normalizes a page as `' '.join(page_text.split())`.  The spec
describes the same policy as "collapses all runs of whitespace (including
newlines) within each page's text to single spaces and trims leading/trailing
whitespace".  The definitions below follow the spec's words and are proved to
agree with the source's normalization. -/

/-- Collapse every maximal run of whitespace to a single space (spec §4.2
wording).  The flag records whether the previous character was whitespace
(i.e. the scan is inside a run). -/
def specCollapseGo : Bool → List Char → List Char
  | _, [] => []
  | prevWs, c :: cs =>
    if pyIsSpace c then
      if prevWs then specCollapseGo true cs
      else ' ' :: specCollapseGo true cs
    else c :: specCollapseGo false cs

/-- Collapse whitespace runs in a character list. -/
def specCollapse (l : List Char) : List Char := specCollapseGo false l

/-- Trim leading whitespace. -/
def trimLeft (l : List Char) : List Char := l.dropWhile pyIsSpace

/-- Trim trailing whitespace. -/
def trimRight : List Char → List Char
  | [] => []
  | c :: cs =>
    let r := trimRight cs
    if r.isEmpty then (if pyIsSpace c then [] else [c]) else c :: r

/-- The spec's wording of per-page normalization: collapse whitespace runs to
single spaces, then trim leading and trailing whitespace. -/
def specNormalize (s : String) : String :=
  String.mk (trimRight (trimLeft (specCollapse s.data)))

/-- Words joined by single spaces, at the character-list level. -/
def joinWords : List (List Char) → List Char
  | [] => []
  | [w] => w
  | w :: ws => w ++ ' ' :: joinWords ws

/-- The continuation of a join after an initial word. -/
def joinTail (ws : List (List Char)) : List Char :=
  if ws.isEmpty then [] else ' ' :: joinWords ws

/-- Joining a list whose first word starts with `c`. -/
theorem joinWords_cons (c : Char) (w : List Char) (ws : List (List Char)) :
    joinWords ((c :: w) :: ws) = c :: (w ++ joinTail ws) := by
  cases ws with
  | nil => simp [joinWords, joinTail]
  | cons v vs => simp [joinWords, joinTail]

/-- The joined words of a split are empty exactly when there are no words. -/
theorem joinWords_wordsA_nil_iff (l : List Char) :
    (joinWords (wordsA l) = [] ↔ wordsA l = []) := by
  induction l with
  | nil => simp [wordsA, joinWords]
  | cons c cs ih =>
    by_cases hc : pyIsSpace c
    · simp [wordsA, hc, ih]
    · simp [wordsA, hc, joinWords_cons]

/-- One step of trailing trim. -/
theorem trimRight_cons (c : Char) (l : List Char) :
    trimRight (c :: l) =
      if (trimRight l).isEmpty then (if pyIsSpace c then [] else [c])
      else c :: trimRight l := rfl

/-- Trimming the collapse of a list equals joining its whitespace-split words:
the `true` state (a whitespace run, or the start, was just consumed) matches
`wordsA`, the `false` state matches `wordsB`. -/
theorem collapse_words_aux (l : List Char) :
    trimRight (specCollapseGo true l) = joinWords (wordsA l) ∧
    trimRight (specCollapseGo false l) = (wordsB l).1 ++ joinTail (wordsB l).2 := by
  induction l with
  | nil => exact ⟨rfl, rfl⟩
  | cons c cs ih =>
    obtain ⟨ihA, ihB⟩ := ih
    by_cases hc : pyIsSpace c
    · constructor
      · simp only [specCollapseGo, wordsA, hc, if_true]
        exact ihA
      · have hsp : pyIsSpace ' ' = true := rfl
        simp [specCollapseGo, wordsB, hc]
        rw [trimRight_cons, ihA]
        by_cases hz : wordsA cs = []
        · simp [hz, joinWords, joinTail, hsp]
        · have hne : joinWords (wordsA cs) ≠ [] :=
            fun h => hz ((joinWords_wordsA_nil_iff cs).mp h)
          simp [joinTail, hz, List.isEmpty_iff, hne]
    · constructor
      · simp [specCollapseGo, wordsA, hc]
        rw [trimRight_cons, ihB, joinWords_cons]
        by_cases hz : (wordsB cs).1 ++ joinTail (wordsB cs).2 = []
        · simp [hz, hc, List.isEmpty_iff]
        · simp [hz, hc, List.isEmpty_iff]
      · simp [specCollapseGo, wordsB, hc]
        rw [trimRight_cons, ihB]
        by_cases hz : (wordsB cs).1 ++ joinTail (wordsB cs).2 = []
        · simp [hz, hc, List.isEmpty_iff]
        · simp [hz, hc, List.isEmpty_iff]

/-- The `true`-state collapse never starts with whitespace, so a leading trim
is the identity on it. -/
theorem trimLeft_collapse_true (l : List Char) :
    trimLeft (specCollapseGo true l) = specCollapseGo true l := by
  induction l with
  | nil => rfl
  | cons c cs ih =>
    by_cases hc : pyIsSpace c
    · simp only [specCollapseGo, hc, if_true]
      exact ih
    · simp [specCollapseGo, hc, trimLeft, List.dropWhile_cons]

/-- Trimming the leading whitespace of a collapse started in the `false`
state yields the `true`-state collapse. -/
theorem trimLeft_collapse (l : List Char) :
    trimLeft (specCollapseGo false l) = specCollapseGo true l := by
  induction l with
  | nil => rfl
  | cons c cs ih =>
    by_cases hc : pyIsSpace c
    · have hsp : pyIsSpace ' ' = true := rfl
      simp only [specCollapseGo, hc, if_true]
      show List.dropWhile pyIsSpace (' ' :: specCollapseGo true cs) = specCollapseGo true cs
      rw [List.dropWhile_cons, hsp]
      exact trimLeft_collapse_true cs
    · simp [specCollapseGo, hc, trimLeft, List.dropWhile_cons]

/-- `' '.join` of `String.mk` words is `String.mk` of the character-level
join. -/
theorem pyJoin_mk (ws : List (List Char)) :
    pyJoin " " (ws.map (fun w => String.mk w)) = String.mk (joinWords ws) := by
  induction ws with
  | nil => rfl
  | cons w ws ih =>
    cases ws with
    | nil => rfl
    | cons v vs =>
      show String.mk w ++ " " ++ pyJoin " " ((v :: vs).map (fun w => String.mk w)) =
        String.mk (joinWords (w :: v :: vs))
      rw [ih]
      show String.mk ((w ++ [' ']) ++ joinWords (v :: vs)) =
        String.mk (w ++ ' ' :: joinWords (v :: vs))
      exact congrArg String.mk (by simp)

/-- The spec's collapse-and-trim normalization equals the source's
`' '.join(s.split())` normalization. -/
theorem specNormalize_eq_join_split (s : String) :
    specNormalize s = pyJoin " " (pySplit s) := by
  unfold specNormalize pySplit specCollapse
  rw [trimLeft_collapse, (collapse_words_aux s.data).1, pyJoin_mk]

/-- The page loop on a document whose pages all extract successfully
normalizes each page in order. -/
theorem extractPagesText_all_ok {cfg : Config} (raw : List String) :
    extractPagesText cfg (raw.map Except.ok) = .ok (raw.map (normalizeText cfg)) := by
  induction raw with
  | nil => rfl
  | cons t ts ih => simp [extractPagesText, exbind_ok, ih]

/-- **C6.** For every valid non-encrypted PDF, with whitespace-normalization
enabled `extract_text_from_pdf` collapses every run of whitespace (including
newlines) within each page's raw text to a single space and trims leading and
trailing whitespace (`specNormalize`, stated the spec's way and proved equal
to the source's `' '.join(split())`), then joins the per-page texts with a
double newline when line-break preservation is enabled and a single space
otherwise; a zero-page document yields the empty string, never an absent
value. -/
theorem C6_whitespace_normalization (cfg : Config) (fs : FS) (p : String)
    (f : File) (doc : PdfDocument) (raw : List String)
    (hw : cfg.REMOVE_EXTRA_WHITESPACE = true)
    (hv : validate_pdf_file cfg fs p = .ok true) (hf : fs p = some f)
    (hr : f.read = .ok doc) (he : doc.is_encrypted = false)
    (hpages : doc.pages = raw.map Except.ok) :
    extract_text_from_pdf cfg fs p =
      .ok (pyJoin (if cfg.PRESERVE_LINE_BREAKS then "\n\n" else " ")
        (raw.map specNormalize)) ∧
    (raw = [] → extract_text_from_pdf cfg fs p = .ok "") := by
  have hnorm : normalizeText cfg = specNormalize := by
    funext t
    rw [normalizeText, hw]
    simp [specNormalize_eq_join_split t]
  have hp : extractPagesText cfg doc.pages = .ok (raw.map specNormalize) := by
    rw [hpages, extractPagesText_all_ok, hnorm]
  have h1 : extract_text_from_pdf cfg fs p =
      .ok (pyJoin (if cfg.PRESERVE_LINE_BREAKS then "\n\n" else " ")
        (raw.map specNormalize)) := by
    unfold extract_text_from_pdf
    exact wrapExcept_ok_iff.mpr (text_body_ok hv hf hr he hp)
  refine ⟨h1, fun hraw => ?_⟩
  subst hraw
  simpa using h1

/-- **C6 witness.** On the concrete `doc.pdf`, the result is the
spec-normalized pages joined by a double newline; on the zero-page
`empty.pdf`, the result is the empty string. -/
theorem C6_whitespace_normalization_witness :
    (extract_text_from_pdf defaultConfig fsMain "doc.pdf" =
      .ok (pyJoin (if defaultConfig.PRESERVE_LINE_BREAKS then "\n\n" else " ")
        ((["  Hello   world \n", "Second  page"] : List String).map specNormalize))) ∧
    extract_text_from_pdf defaultConfig fsMain "empty.pdf" = .ok "" :=
  ⟨(C6_whitespace_normalization defaultConfig fsMain "doc.pdf"
      { sizeBytes := 1048576, read := .ok sampleDoc } sampleDoc
      ["  Hello   world \n", "Second  page"] rfl rfl rfl rfl rfl rfl).1,
   (C6_whitespace_normalization defaultConfig fsMain "empty.pdf"
      { sizeBytes := 3, read := .ok emptyDoc } emptyDoc
      [] rfl rfl rfl rfl rfl rfl).2 rfl⟩
